import Mathlib

/-!
Shallow embedding of the minigrep line-search tool (`src/lib.rs`).

Lines are modelled as `List Char` (the regex crate only ever reports match
offsets on character boundaries of the patterns exercised here, so character
indices stand in for byte offsets).  Reading a line from a `BufRead` can fail
(`io::Result`), so a physical line is an `Option (List Char)`: `none` is a
line whose read/decode failed (the Rust code pattern-matches `Ok(l)` and
silently skips `Err` lines while still consuming their `enumerate` index).

External capabilities are passed as parameters:
  * the compiled regex's `find_iter` becomes `matcher : List Char → List Span`
    (for literal patterns it is modelled concretely by `litFind` below);
  * the filesystem becomes `fs : String → Option (List (Option (List Char)))`
    where `none` means `File::open` fails for that path;
  * the `WalkDir` traversal becomes `walk : String → List String`, the regular
    files found under the root in traversal order (entries whose walk step
    errored are already absent, mirroring `filter_map(|e| e.ok())`).

A Rust `panic!` / `.expect` aborts the process after the output written so
far; a run result therefore carries the accumulated output together with an
optional panic message.
-/

namespace Minigrep

/-- A regex match span, half-open `[start, stop)`, as reported by
`Match::start()` / `Match::end()` (`end` is a Lean keyword, hence `stop`). -/
structure Span where
  start : Nat
  stop : Nat
deriving DecidableEq

/-- The clap-parsed command line arguments (struct `Args` in `lib.rs`).
Fields in source order: `insensitive`, `query`, `names`, `linenumber`,
`color`, `recursive`, `filenames`. -/
structure Args where
  insensitive : Bool
  query : List Char
  names : Bool
  linenumber : Bool
  color : Bool
  recursive : Bool
  filenames : List String

/-- The ASCII escape character used by the `colored` crate. -/
def esc : Char := Char.ofNat 27

/-- `m.as_str().bold().red()` : the `colored` crate brackets the text with
`ESC[1;31m` … `ESC[0m` (observed in the repository's own tests). -/
def boldRed (s : List Char) : List Char :=
  [esc] ++ "[1;31m".toList ++ s ++ [esc] ++ "[0m".toList

/-- `writeln!(writer, "{}", filename.purple())` : the purple label line
`ESC[35m` ++ filename ++ `ESC[0m` ++ newline (observed in the tests). -/
def labelLine (filename : String) : List Char :=
  [esc] ++ "[35m".toList ++ filename.toList ++ [esc] ++ "[0m".toList ++ ['\n']

/-- The decimal line-number tag `format!("{}:", linenumber)`. -/
def numTag (n : Nat) : List Char := (Nat.repr n).toList ++ [':']

/-- The byte-range slice `&line[a..b]`. -/
def slice (l : List Char) (a b : Nat) : List Char := (l.drop a).take (b - a)

/-- The body of `handle_line`'s `for (i, m) in matches.enumerate()` loop plus
the trailing `result.push_str(&format!("{}\n", &line[offset..]))`: starting at
`offset`, emit the text before each match, then the (optionally colored)
matched text, advance `offset` to `m.end()`, and after the last match emit the
remainder of the line followed by a newline. -/
def renderFrom (line : List Char) (color : Bool) : Nat → List Span → List Char
  | offset, [] => line.drop offset ++ ['\n']
  | offset, m :: rest =>
      slice line offset m.start ++
      (if color then boldRed (slice line m.start m.stop)
       else slice line m.start m.stop) ++
      renderFrom line color m.stop rest

/-- `handle_line`: `ms` is the list `re.find_iter(line)` produced by the
compiled regex.  With no match, `found` stays `false` and the function
returns `None`.  Otherwise the output is the `"{linenumber}:"` tag (pushed at
loop index 0 when `args.linenumber` is set, hence leading the result), the
interleaved segments, and the post-match remainder with a newline. -/
def handle_line (line : List Char) (linenumber : Nat) (ms : List Span)
    (args : Args) : Option (List Char) :=
  match ms with
  | [] => none
  | _ :: _ =>
      some ((if args.linenumber then numTag linenumber else []) ++
        renderFrom line args.color 0 ms)

/-- The line loop of `from_stdin`: `io.input.lines().enumerate()`, skipping
`Err` lines (which still consume an index), writing each `Some` result of
`handle_line` with line number `index + 1`. -/
def fromStdinLoop (args : Args) (matcher : List Char → List Span) :
    List (Option (List Char)) → Nat → List Char
  | [], _ => []
  | none :: rest, idx => fromStdinLoop args matcher rest (idx + 1)
  | some l :: rest, idx =>
      (match handle_line l (idx + 1) (matcher l) args with
       | some out => out
       | none => []) ++ fromStdinLoop args matcher rest (idx + 1)

/-- `from_stdin`: processes the stdin lines, writing to `io.output`
(the locked process stdout in `grep`); returns the text written there. -/
def from_stdin (args : Args) (matcher : List Char → List Span)
    (lines : List (Option (List Char))) : List Char :=
  fromStdinLoop args matcher lines 0

/-- The line loop of `handle_file`: like the stdin loop, but before writing
the first matched line it writes the purple filename label when
`found == false && args.names`, and only that branch sets `found = true`. -/
def handleFileLoop (args : Args) (matcher : List Char → List Span)
    (filename : String) :
    List (Option (List Char)) → Nat → Bool → List Char
  | [], _, _ => []
  | none :: rest, idx, found => handleFileLoop args matcher filename rest (idx + 1) found
  | some l :: rest, idx, found =>
      match handle_line l (idx + 1) (matcher l) args with
      | none => handleFileLoop args matcher filename rest (idx + 1) found
      | some out =>
          if !found && args.names then
            labelLine filename ++ out ++
              handleFileLoop args matcher filename rest (idx + 1) true
          else
            out ++ handleFileLoop args matcher filename rest (idx + 1) found

/-- Output written so far together with an optional panic: a Rust `panic!` or
failed `.expect` aborts the run, keeping whatever was already written. -/
structure RunResult where
  output : List Char
  panicMsg : Option String
deriving DecidableEq

/-- `handle_file`: `File::open(filename).expect("ERROR, file cannot be opened")`
panics when the file cannot be opened; otherwise runs the line loop with
`found = false` over the file's lines (enumeration restarting at 0, so line
numbers restart at 1 for every file). -/
def handle_file (fs : String → Option (List (Option (List Char))))
    (filename : String) (args : Args) (matcher : List Char → List Span) :
    RunResult :=
  match fs filename with
  | none => ⟨[], some "ERROR, file cannot be opened"⟩
  | some lines => ⟨handleFileLoop args matcher filename lines 0 false, none⟩

/-- The recursive-mode file loop of `from_files`: `handle_file` on each walked
file in order; a panic aborts with the output written so far. -/
def runFilesRec (fs : String → Option (List (Option (List Char))))
    (args : Args) (matcher : List Char → List Span) :
    List String → RunResult
  | [] => ⟨[], none⟩
  | f :: rest =>
      match handle_file fs f args matcher with
      | ⟨out, some m⟩ => ⟨out, some m⟩
      | ⟨out, none⟩ =>
          match runFilesRec fs args matcher rest with
          | ⟨out2, p⟩ => ⟨out ++ out2, p⟩

/-- The non-recursive file loop of `from_files`: `handle_file` on each listed
file followed by `writeln!(writer, "")` — one blank separator line per file;
a panic aborts with the output written so far (no separator for the
panicking file). -/
def runFileList (fs : String → Option (List (Option (List Char))))
    (args : Args) (matcher : List Char → List Span) :
    List String → RunResult
  | [] => ⟨[], none⟩
  | f :: rest =>
      match handle_file fs f args matcher with
      | ⟨out, some m⟩ => ⟨out, some m⟩
      | ⟨out, none⟩ =>
          match runFileList fs args matcher rest with
          | ⟨out2, p⟩ => ⟨out ++ ['\n'] ++ out2, p⟩

/-- `from_files`: in recursive mode, panic `"Recursive Search only works for a
single directory"` unless exactly one filename was given, then walk that
directory, `handle_file` every regular file, and afterwards write one blank
separator line; otherwise process the listed files with a separator after
each. -/
def from_files (fs : String → Option (List (Option (List Char))))
    (walk : String → List String) (args : Args)
    (matcher : List Char → List Span) : RunResult :=
  if args.recursive then
    if args.filenames.length = 1 then
      match runFilesRec fs args matcher (walk (args.filenames.headD "")) with
      | ⟨out, some m⟩ => ⟨out, some m⟩
      | ⟨out, none⟩ => ⟨out ++ ['\n'], none⟩
    else
      ⟨[], some "Recursive Search only works for a single directory"⟩
  else
    runFileList fs args matcher args.filenames

/-- Result of a whole `grep` call: what was written to the caller-supplied
`writer` parameter, what was written to the process stdout, and whether the
run panicked. -/
structure GrepResult where
  writerOutput : List Char
  stdoutOutput : List Char
  panicMsg : Option String
deriving DecidableEq

/-- `grep`: compiles the regex (modelled by the `matcher` parameter — an
invalid pattern would panic in `create_regex` before anything else), then with
an empty filename list runs `from_stdin` against the locked process
stdin/stdout, leaving the `writer` parameter untouched; otherwise runs
`from_files` against `writer`. -/
def grep (args : Args) (stdinLines : List (Option (List Char)))
    (fs : String → Option (List (Option (List Char))))
    (walk : String → List String) (matcher : List Char → List Span) :
    GrepResult :=
  if args.filenames.isEmpty then
    ⟨[], from_stdin args matcher stdinLines, none⟩
  else
    match from_files fs walk args matcher with
    | ⟨out, p⟩ => ⟨out, [], p⟩

/-- Concrete model of the regex crate's `find_iter` for literal patterns:
scan left to right from position `i`, report a match wherever the literal is
a prefix of the remaining text, and resume after the match — except that a
zero-width match advances by one position, exactly the crate's documented
behaviour for empty-width regexes (the empty pattern matches at every
position `0..=len`).  `fuel` bounds the scan; `litFind` supplies enough. -/
def litFindFrom (pat line : List Char) : Nat → Nat → List Span
  | 0, _ => []
  | fuel + 1, i =>
      if line.length < i then []
      else if pat.isPrefixOf (line.drop i) then
        ⟨i, i + pat.length⟩ ::
          litFindFrom pat line fuel
            (if pat.isEmpty then i + 1 else i + pat.length)
      else litFindFrom pat line fuel (i + 1)

/-- `re.find_iter(line)` for the literal pattern `pat`, case-sensitively. -/
def litFind (pat line : List Char) : List Span :=
  litFindFrom pat line (line.length + 2) 0

/-- The span-list shape the regex crate guarantees for `find_iter` output
relative to a running offset: each span starts at or after the offset, is
well-formed, and the next spans chain after its end (left-to-right,
non-overlapping). -/
def validChainFrom : Nat → List Span → Bool
  | _, [] => true
  | offset, m :: rest =>
      decide (offset ≤ m.start) && decide (m.start ≤ m.stop) &&
        validChainFrom m.stop rest

/-- Whether some readable line of the file has at least one match — the
condition under which `handle_file`'s loop ever reaches its label branch. -/
def anyMatch (matcher : List Char → List Span) :
    List (Option (List Char)) → Bool
  | [] => false
  | none :: rest => anyMatch matcher rest
  | some l :: rest => !(matcher l).isEmpty || anyMatch matcher rest

/-- Specification-side rendering of a line sequence, following the spec's
words on numbering: every physical line (readable or not) is numbered by its
1-based position via `enumFrom start`; only readable lines with at least one
match contribute output, namely the optional `"{n}:"` tag, the original line
text, and a newline. -/
def specNumberedOutput (args : Args) (matcher : List Char → List Span)
    (lines : List (Option (List Char))) (start : Nat) : List Char :=
  List.flatten ((List.enumFrom start lines).filterMap (fun p =>
    match p.2 with
    | none => none
    | some l =>
        match matcher l with
        | [] => none
        | _ :: _ =>
            some ((if args.linenumber then numTag p.1 else []) ++
              (l ++ ['\n']))))

/-! ### Concrete fixtures used by witnesses and counterexamples -/

/-- `find_iter` of the compiled case-sensitive literal pattern `"foo"`. -/
def mfoo : List Char → List Span := litFind "foo".toList

/-- A directory walk finding no files. -/
def walk0 : String → List String := fun _ => []

/-- A filesystem on which every open fails. -/
def fs0 : String → Option (List (Option (List Char))) := fun _ => none

/-- Arguments with every flag off (stream mode, pattern `"foo"`). -/
def argsPlain : Args := ⟨false, "foo".toList, false, false, false, false, []⟩

/-- Arguments with only line numbers on (stream mode, pattern `"foo"`). -/
def argsNum : Args := ⟨false, "foo".toList, false, true, false, false, []⟩

/-- One file `a.txt` whose single line has no `"foo"` match. -/
def fsA : String → Option (List (Option (List Char))) :=
  fun f => if f = "a.txt" then some [some "bar one".toList] else none

/-- FileList-mode arguments over `a.txt` with labels on. -/
def argsListA : Args :=
  ⟨false, "foo".toList, true, false, false, false, ["a.txt"]⟩

/-- Two files: `a.txt` without and `b.txt` with a `"foo"` match. -/
def fsAB : String → Option (List (Option (List Char))) :=
  fun f =>
    if f = "a.txt" then some [some "bar one".toList]
    else if f = "b.txt" then some [some "foo two".toList]
    else none

/-- FileList-mode arguments over `a.txt`, `b.txt` with labels on. -/
def argsListAB : Args :=
  ⟨false, "foo".toList, true, false, false, false, ["a.txt", "b.txt"]⟩

/-- A filesystem in which only `bad.txt` fails to open. -/
def fsBad : String → Option (List (Option (List Char))) :=
  fun f => if f = "bad.txt" then none else some [some "foo".toList]

/-- A walk yielding a good file, the unopenable file, then another good one. -/
def walkBad : String → List String :=
  fun _ => ["good.txt", "bad.txt", "good2.txt"]

/-- Recursive-mode arguments on one directory, labels off. -/
def argsRecDir : Args :=
  ⟨false, "foo".toList, false, false, false, true, ["dir"]⟩

/-- Recursive-mode arguments on one directory, labels on. -/
def argsRecNames : Args :=
  ⟨false, "foo".toList, true, false, false, true, ["dir"]⟩

/-- Two regular files under `dir`: one with a match, one without. -/
def fsRec : String → Option (List (Option (List Char))) :=
  fun f =>
    if f = "dir/a.txt" then some [some "bar".toList, some "foo x".toList]
    else if f = "dir/b.txt" then some [some "bar".toList]
    else none

/-- The walk of `dir` for `fsRec`. -/
def walkRec : String → List String := fun _ => ["dir/a.txt", "dir/b.txt"]

/-- Recursive flag set but an empty filename list. -/
def argsRec0 : Args := ⟨false, "foo".toList, false, false, false, true, []⟩

/-- Recursive flag set with two paths. -/
def argsRecAB : Args :=
  ⟨false, "foo".toList, false, false, false, true, ["a.txt", "b.txt"]⟩

/-- A four-line file (one line unreadable) for the numbering witness. -/
def fsW8 : String → Option (List (Option (List Char))) :=
  fun f =>
    if f = "w.txt" then
      some [some "foo a".toList, none, some "b".toList, some "foo c".toList]
    else none

/-! ### Supporting lemmas -/

lemma drop_eq_slice_append (l : List Char) (a b : Nat) (h : a ≤ b) :
    l.drop a = slice l a b ++ l.drop b := by
  have h2 : l.drop b = (l.drop a).drop (b - a) := by
    rw [List.drop_drop]
    congr 1
    omega
  rw [h2, slice]
  exact (List.take_append_drop _ _).symm

lemma renderFrom_no_color (line : List Char) :
    ∀ (ms : List Span) (offset : Nat), validChainFrom offset ms = true →
      renderFrom line false offset ms = line.drop offset ++ ['\n'] := by
  intro ms
  induction ms with
  | nil => intro offset _; rfl
  | cons m rest ih =>
      intro offset h
      simp only [validChainFrom, Bool.and_eq_true, decide_eq_true_eq] at h
      obtain ⟨⟨h1, h2⟩, h3⟩ := h
      simp only [renderFrom]
      rw [ih m.stop h3, drop_eq_slice_append line offset m.start h1,
        drop_eq_slice_append line m.start m.stop h2]
      simp [List.append_assoc]

lemma handle_line_eq_of_valid (line : List Char) (n : Nat) (ms : List Span)
    (args : Args) (hms : ms ≠ []) (hv : validChainFrom 0 ms = true)
    (hc : args.color = false) :
    handle_line line n ms args =
      some ((if args.linenumber then numTag n else []) ++ (line ++ ['\n'])) := by
  match ms, hms with
  | m :: rest, _ =>
      simp only [handle_line, hc]
      rw [renderFrom_no_color line (m :: rest) 0 hv, List.drop_zero]

lemma validChainFrom_mono {a b : Nat} {ms : List Span} (hab : a ≤ b)
    (h : validChainFrom b ms = true) : validChainFrom a ms = true := by
  cases ms with
  | nil => rfl
  | cons m rest =>
      simp only [validChainFrom, Bool.and_eq_true, decide_eq_true_eq] at h ⊢
      exact ⟨⟨le_trans hab h.1.1, h.1.2⟩, h.2⟩

lemma litFindFrom_valid (pat line : List Char) :
    ∀ (fuel i : Nat), validChainFrom i (litFindFrom pat line fuel i) = true := by
  intro fuel
  induction fuel with
  | zero => intro i; rfl
  | succ fuel ih =>
      intro i
      simp only [litFindFrom]
      by_cases hlen : line.length < i
      · rw [if_pos hlen]; rfl
      · simp only [if_neg hlen]
        by_cases hpre : pat.isPrefixOf (line.drop i)
        · simp only [if_pos hpre, validChainFrom, Bool.and_eq_true,
            decide_eq_true_eq]
          refine ⟨⟨le_refl i, Nat.le_add_right i pat.length⟩, ?_⟩
          by_cases hemp : pat.isEmpty
          · have hlen0 : pat.length = 0 := by
              cases pat with
              | nil => rfl
              | cons a l => simp [List.isEmpty] at hemp
            rw [if_pos hemp]
            exact validChainFrom_mono (by omega) (ih (i + 1))
          · rw [if_neg hemp]
            exact ih (i + pat.length)
        · simp only [if_neg hpre]
          exact validChainFrom_mono (Nat.le_succ i) (ih (i + 1))

lemma litFind_valid (pat line : List Char) :
    validChainFrom 0 (litFind pat line) = true :=
  litFindFrom_valid pat line (line.length + 2) 0

lemma handleFileLoop_found (args : Args) (matcher : List Char → List Span)
    (fname : String) :
    ∀ (lines : List (Option (List Char))) (idx : Nat),
      handleFileLoop args matcher fname lines idx true =
        fromStdinLoop args matcher lines idx := by
  intro lines
  induction lines with
  | nil => intro idx; rfl
  | cons ol rest ih =>
      intro idx
      cases ol with
      | none =>
          simp only [handleFileLoop, fromStdinLoop]
          exact ih (idx + 1)
      | some l =>
          simp only [handleFileLoop, fromStdinLoop]
          cases hl : handle_line l (idx + 1) (matcher l) args with
          | none => simpa using ih (idx + 1)
          | some out => simp [ih (idx + 1)]

lemma handleFileLoop_names_false (args : Args) (matcher : List Char → List Span)
    (fname : String) (h : args.names = false) :
    ∀ (lines : List (Option (List Char))) (idx : Nat) (found : Bool),
      handleFileLoop args matcher fname lines idx found =
        fromStdinLoop args matcher lines idx := by
  intro lines
  induction lines with
  | nil => intro idx found; rfl
  | cons ol rest ih =>
      intro idx found
      cases ol with
      | none =>
          simp only [handleFileLoop, fromStdinLoop]
          exact ih (idx + 1) found
      | some l =>
          simp only [handleFileLoop, fromStdinLoop]
          cases hl : handle_line l (idx + 1) (matcher l) args with
          | none => simpa using ih (idx + 1) found
          | some out => simp [h, ih (idx + 1)]

lemma handleFileLoop_label (args : Args) (matcher : List Char → List Span)
    (fname : String) (h : args.names = true) :
    ∀ (lines : List (Option (List Char))) (idx : Nat),
      handleFileLoop args matcher fname lines idx false =
        if anyMatch matcher lines then
          labelLine fname ++ fromStdinLoop args matcher lines idx
        else [] := by
  intro lines
  induction lines with
  | nil => intro idx; rfl
  | cons ol rest ih =>
      intro idx
      cases ol with
      | none =>
          simp only [handleFileLoop, fromStdinLoop, anyMatch]
          exact ih (idx + 1)
      | some l =>
          cases hm : matcher l with
          | nil =>
              simp only [handleFileLoop, fromStdinLoop, anyMatch, hm,
                handle_line, List.isEmpty, Bool.not_true, Bool.false_or]
              simpa using ih (idx + 1)
          | cons m ms =>
              simp only [handleFileLoop, fromStdinLoop, anyMatch, hm,
                handle_line, List.isEmpty, Bool.not_false, Bool.true_or,
                Bool.not_false, Bool.true_and, h, if_true,
                handleFileLoop_found args matcher fname rest (idx + 1)]
              simp [List.append_assoc]

lemma fromStdinLoop_eq_spec (args : Args) (matcher : List Char → List Span)
    (hv : ∀ l, validChainFrom 0 (matcher l) = true) (hc : args.color = false) :
    ∀ (lines : List (Option (List Char))) (idx : Nat),
      fromStdinLoop args matcher lines idx =
        specNumberedOutput args matcher lines (idx + 1) := by
  intro lines
  induction lines with
  | nil => intro idx; rfl
  | cons ol rest ih =>
      intro idx
      cases ol with
      | none =>
          simp only [fromStdinLoop, specNumberedOutput, List.enumFrom_cons,
            List.filterMap_cons]
          exact ih (idx + 1)
      | some l =>
          cases hm : matcher l with
          | nil =>
              simp only [fromStdinLoop, specNumberedOutput, List.enumFrom_cons,
                List.filterMap_cons, hm, handle_line]
              simpa using ih (idx + 1)
          | cons m ms =>
              have hline := handle_line_eq_of_valid l (idx + 1) (m :: ms) args
                (by simp) (by rw [← hm]; exact hv l) hc
              simp only [fromStdinLoop, specNumberedOutput, List.enumFrom_cons,
                List.filterMap_cons, hm, hline]
              have := ih (idx + 1)
              simp only [specNumberedOutput] at this
              simp [this]

lemma runFileList_no_panic (fs : String → Option (List (Option (List Char))))
    (args : Args) (matcher : List Char → List Span) :
    ∀ (files : List String), (∀ f ∈ files, fs f ≠ none) →
      runFileList fs args matcher files =
        ⟨List.flatten (files.map
          (fun f => (handle_file fs f args matcher).output ++ ['\n'])), none⟩ := by
  intro files
  induction files with
  | nil => intro _; rfl
  | cons f rest ih =>
      intro hopen
      have hf : fs f ≠ none := hopen f (by simp)
      cases hfs : fs f with
      | none => exact absurd hfs hf
      | some lines =>
          have hrest := ih (fun g hg => hopen g (by simp [hg]))
          simp only [runFileList, handle_file, hfs, hrest]
          simp [handle_file, hfs]

lemma runFilesRec_no_panic (fs : String → Option (List (Option (List Char))))
    (args : Args) (matcher : List Char → List Span) :
    ∀ (files : List String), (∀ f ∈ files, fs f ≠ none) →
      runFilesRec fs args matcher files =
        ⟨List.flatten (files.map
          (fun f => (handle_file fs f args matcher).output)), none⟩ := by
  intro files
  induction files with
  | nil => intro _; rfl
  | cons f rest ih =>
      intro hopen
      have hf : fs f ≠ none := hopen f (by simp)
      cases hfs : fs f with
      | none => exact absurd hfs hf
      | some lines =>
          have hrest := ih (fun g hg => hopen g (by simp [hg]))
          simp only [runFilesRec, handle_file, hfs, hrest]
          simp [handle_file, hfs]

lemma runFilesRec_panic (fs : String → Option (List (Option (List Char))))
    (args : Args) (matcher : List Char → List Span)
    (f : String) (hf : fs f = none) :
    ∀ (pre post : List String), (∀ g ∈ pre, fs g ≠ none) →
      runFilesRec fs args matcher (pre ++ f :: post) =
        ⟨List.flatten (pre.map
          (fun g => (handle_file fs g args matcher).output)),
          some "ERROR, file cannot be opened"⟩ := by
  intro pre
  induction pre with
  | nil =>
      intro post _
      simp only [List.nil_append, runFilesRec, handle_file, hf]
      rfl
  | cons g pre ih =>
      intro post hopen
      have hg : fs g ≠ none := hopen g (by simp)
      cases hgs : fs g with
      | none => exact absurd hgs hg
      | some lines =>
          have hrest := ih post (fun g' hg' => hopen g' (by simp [hg']))
          simp only [List.cons_append, runFilesRec, handle_file, hgs, hrest]
          simp [handle_file, hgs, hrest]

/-! ### Claims -/

/-- C1: for every line with at least one match (spans as the regex reports
them: left-to-right, non-overlapping, each well-formed) and emphasis
disabled, the annotated output is exactly the optional line-number tag, the
original line text unchanged, and the trailing newline — the plain prefix,
matched spans, inter-match gaps and trailing remainder concatenate back to
the line with no characters gained or lost. -/
theorem c1_round_trip (line : List Char) (n : Nat) (ms : List Span)
    (args : Args) (hms : ms ≠ []) (hv : validChainFrom 0 ms = true)
    (hc : args.color = false) :
    handle_line line n ms args =
      some ((if args.linenumber then numTag n else []) ++ (line ++ ['\n'])) :=
  handle_line_eq_of_valid line n ms args hms hv hc

/-- C1 witness: the single span `[1,3)` on the line `"xaby"`. -/
theorem c1_round_trip_witness :
    ([⟨1, 3⟩] : List Span) ≠ [] ∧ validChainFrom 0 [⟨1, 3⟩] = true ∧
    handle_line "xaby".toList 1 [⟨1, 3⟩] argsPlain =
      some ((if argsPlain.linenumber then numTag 1 else []) ++
        ("xaby".toList ++ ['\n'])) :=
  ⟨by decide, by decide,
    c1_round_trip "xaby".toList 1 [⟨1, 3⟩] argsPlain (by decide) (by decide)
      rfl⟩

/-- C2: for a line on which the matcher finds zero matches, `handle_line`
returns `none`, and both the stdin loop and the file loop emit nothing for
that line and continue with the rest (the line is dropped, not rendered as
plain text or as an empty line). -/
theorem c2_no_match_dropped (args : Args) (matcher : List Char → List Span)
    (l : List Char) (n idx : Nat) (rest : List (Option (List Char)))
    (found : Bool) (fname : String) (h : matcher l = []) :
    handle_line l n (matcher l) args = none ∧
    fromStdinLoop args matcher (some l :: rest) idx =
      fromStdinLoop args matcher rest (idx + 1) ∧
    handleFileLoop args matcher fname (some l :: rest) idx found =
      handleFileLoop args matcher fname rest (idx + 1) found := by
  refine ⟨by rw [h]; rfl, ?_, ?_⟩
  · simp only [fromStdinLoop, h, handle_line]
    simp
  · simp only [handleFileLoop, h, handle_line]

/-- C2 witness: the line `"bar one"` has no `"foo"` match and is dropped. -/
theorem c2_no_match_dropped_witness :
    mfoo "bar one".toList = [] ∧
    (handle_line "bar one".toList 1 (mfoo "bar one".toList) argsPlain = none ∧
     fromStdinLoop argsPlain mfoo (some "bar one".toList :: []) 0 =
       fromStdinLoop argsPlain mfoo [] (0 + 1) ∧
     handleFileLoop argsPlain mfoo "f" (some "bar one".toList :: []) 0 false =
       handleFileLoop argsPlain mfoo "f" [] (0 + 1) false) :=
  ⟨by decide,
    c2_no_match_dropped argsPlain mfoo "bar one".toList 1 0 [] false "f"
      (by decide)⟩

/-- C3 counterexample: in FileList mode with labels enabled, the file
`a.txt` has zero matching lines, and its block is just the blank separator —
the purple label is NOT written, contradicting the claim that the label is
written unconditionally before any of the file's lines. -/
theorem c3_counterexample :
    anyMatch mfoo [some "bar one".toList] = false ∧
    (from_files fsA walk0 argsListA mfoo).output = ['\n'] ∧
    (labelLine "a.txt").isPrefixOf
      (from_files fsA walk0 argsListA mfoo).output = false := by
  decide

/-- C3 amended: in FileList mode exactly one separator blank line follows
every file regardless of its match count, but the label is written lazily —
only immediately before the first annotated line of the file, so a file with
zero matching lines produces no output at all (no label). -/
theorem c3_filelist_amended (fs : String → Option (List (Option (List Char))))
    (walk : String → List String) (args : Args)
    (matcher : List Char → List Span) (hrec : args.recursive = false)
    (hn : args.names = true) (hopen : ∀ f ∈ args.filenames, fs f ≠ none) :
    from_files fs walk args matcher =
      ⟨List.flatten (args.filenames.map
        (fun f => (handle_file fs f args matcher).output ++ ['\n'])), none⟩ ∧
    ∀ f lines, fs f = some lines →
      (handle_file fs f args matcher).output =
        (if anyMatch matcher lines then
          labelLine f ++ fromStdinLoop args matcher lines 0
        else []) := by
  constructor
  · simp only [from_files, hrec, Bool.false_eq_true, if_false]
    exact runFileList_no_panic fs args matcher args.filenames hopen
  · intro f lines hfs
    simp only [handle_file, hfs]
    exact handleFileLoop_label args matcher f hn lines 0

/-- C3 amended witness: `a.txt` (no match) and `b.txt` (one match). -/
theorem c3_filelist_amended_witness :
    from_files fsAB walk0 argsListAB mfoo =
      ⟨List.flatten (argsListAB.filenames.map
        (fun f => (handle_file fsAB f argsListAB mfoo).output ++ ['\n'])),
        none⟩ ∧
    ∀ f lines, fsAB f = some lines →
      (handle_file fsAB f argsListAB mfoo).output =
        (if anyMatch mfoo lines then
          labelLine f ++ fromStdinLoop argsListAB mfoo lines 0
        else []) :=
  c3_filelist_amended fsAB walk0 argsListAB mfoo rfl rfl (by decide)

/-- C4 counterexample: in recursive mode the traversal finds `good.txt`,
`bad.txt` (cannot be opened) and `good2.txt`; the run panics at `bad.txt`
with only `good.txt`'s output written — the unopenable file is not skipped
and the run does not continue, contradicting the claim. -/
theorem c4_counterexample :
    fsBad "bad.txt" = none ∧
    (from_files fsBad walkBad argsRecDir mfoo).panicMsg =
      some "ERROR, file cannot be opened" ∧
    (from_files fsBad walkBad argsRecDir mfoo).output = "foo\n".toList := by
  decide

/-- C4 amended: in recursive mode an unreadable LINE is silently skipped,
but a file that cannot be OPENED panics: the run aborts with the message
`"ERROR, file cannot be opened"`, keeping only the output of the files
walked before it (no trailing separator, no later files scanned). -/
theorem c4_open_failure_aborts
    (fs : String → Option (List (Option (List Char))))
    (walk : String → List String) (args : Args)
    (matcher : List Char → List Span) (d f : String) (pre post : List String)
    (hrec : args.recursive = true) (hfn : args.filenames = [d])
    (hw : walk d = pre ++ f :: post)
    (hpre : ∀ g ∈ pre, fs g ≠ none) (hf : fs f = none) :
    from_files fs walk args matcher =
      ⟨List.flatten (pre.map
        (fun g => (handle_file fs g args matcher).output)),
        some "ERROR, file cannot be opened"⟩ ∧
    ∀ (rest : List (Option (List Char))) (idx : Nat) (found : Bool)
      (fname : String),
      handleFileLoop args matcher fname (none :: rest) idx found =
        handleFileLoop args matcher fname rest (idx + 1) found := by
  constructor
  · simp only [from_files, hrec, if_true, hfn, List.length_cons,
      List.length_nil, List.headD]
    rw [hw, runFilesRec_panic fs args matcher f hf pre post hpre]
  · intro rest idx found fname
    rfl

/-- C4 amended witness: the `fsBad` traversal instantiated. -/
theorem c4_open_failure_aborts_witness :
    from_files fsBad walkBad argsRecDir mfoo =
      ⟨List.flatten (["good.txt"].map
        (fun g => (handle_file fsBad g argsRecDir mfoo).output)),
        some "ERROR, file cannot be opened"⟩ ∧
    ∀ (rest : List (Option (List Char))) (idx : Nat) (found : Bool)
      (fname : String),
      handleFileLoop argsRecDir mfoo fname (none :: rest) idx found =
        handleFileLoop argsRecDir mfoo fname rest (idx + 1) found :=
  c4_open_failure_aborts fsBad walkBad argsRecDir mfoo "dir" "bad.txt"
    ["good.txt"] ["good2.txt"] rfl rfl (by decide) (by decide) (by decide)

/-- C5 counterexample: the empty pattern is accepted by the regex engine and
produces a zero-length match at every position of `"abc"`; `handle_line`
then treats the line as matching and emits it in full — a line IS emitted
solely on account of zero-length matches. -/
theorem c5_counterexample :
    litFind [] "abc".toList =
      [⟨0, 0⟩, ⟨1, 1⟩, ⟨2, 2⟩, ⟨3, 3⟩] ∧
    handle_line "abc".toList 1 (litFind [] "abc".toList) argsPlain =
      some "abc\n".toList := by
  decide

/-- C5 amended: an empty-width pattern is neither rejected at compilation
nor treated as "no match": on every line it yields at least one (zero-length)
match, and the line is emitted, reconstructed in full. -/
theorem c5_empty_pattern_amended (line : List Char) (n : Nat) :
    litFind [] line ≠ [] ∧
    handle_line line n (litFind [] line) argsPlain =
      some (line ++ ['\n']) := by
  have hne : litFind [] line ≠ [] := by
    rw [litFind]
    have h2 : line.length + 2 = (line.length + 1) + 1 := rfl
    rw [h2]
    simp [litFindFrom, List.isPrefixOf]
  refine ⟨hne, ?_⟩
  rw [handle_line_eq_of_valid line n (litFind [] line) argsPlain hne
    (litFind_valid [] line) rfl]
  simp [argsPlain]

/-- C6: in recursive Directory mode with labels enabled (all walked files
openable), the whole run's output is the concatenation of the per-file
outputs followed by exactly ONE blank separator line at the very end of the
traversal (not one per file); a file with zero matching lines contributes
nothing (no label), and a file with a match contributes its label
immediately followed by its annotated lines. -/
theorem c6_directory_mode (fs : String → Option (List (Option (List Char))))
    (walk : String → List String) (args : Args)
    (matcher : List Char → List Span) (d : String)
    (hrec : args.recursive = true) (hn : args.names = true)
    (hfn : args.filenames = [d]) (hopen : ∀ f ∈ walk d, fs f ≠ none) :
    from_files fs walk args matcher =
      ⟨List.flatten ((walk d).map
        (fun f => (handle_file fs f args matcher).output)) ++ ['\n'],
        none⟩ ∧
    (∀ f lines, fs f = some lines → anyMatch matcher lines = false →
      (handle_file fs f args matcher).output = []) ∧
    (∀ f lines, fs f = some lines → anyMatch matcher lines = true →
      (handle_file fs f args matcher).output =
        labelLine f ++ fromStdinLoop args matcher lines 0) := by
  refine ⟨?_, ?_, ?_⟩
  · simp only [from_files, hrec, if_true, hfn, List.length_cons,
      List.length_nil, List.headD]
    rw [runFilesRec_no_panic fs args matcher (walk d) hopen]
  · intro f lines hfs hzero
    simp only [handle_file, hfs]
    rw [handleFileLoop_label args matcher f hn lines 0, hzero]
    rfl
  · intro f lines hfs hsome
    simp only [handle_file, hfs]
    rw [handleFileLoop_label args matcher f hn lines 0, hsome]
    rfl

/-- C6 witness: the traversal `fsRec`/`walkRec` instantiated. -/
theorem c6_directory_mode_witness :
    from_files fsRec walkRec argsRecNames mfoo =
      ⟨List.flatten ((walkRec "dir").map
        (fun f => (handle_file fsRec f argsRecNames mfoo).output)) ++ ['\n'],
        none⟩ ∧
    (∀ f lines, fsRec f = some lines → anyMatch mfoo lines = false →
      (handle_file fsRec f argsRecNames mfoo).output = []) ∧
    (∀ f lines, fsRec f = some lines → anyMatch mfoo lines = true →
      (handle_file fsRec f argsRecNames mfoo).output =
        labelLine f ++ fromStdinLoop argsRecNames mfoo lines 0) :=
  c6_directory_mode fsRec walkRec argsRecNames mfoo "dir" rfl rfl rfl
    (by decide)

/-- C7 counterexample: with the recursive flag set and an EMPTY path list —
"other than exactly one path" — the run does not fail: `grep` falls into
stream mode, panics nowhere, and produces output from stdin. -/
theorem c7_counterexample :
    argsRec0.recursive = true ∧ argsRec0.filenames.length = 0 ∧
    (grep argsRec0 [some "foo bar".toList] fs0 walk0 mfoo).panicMsg = none ∧
    (grep argsRec0 [some "foo bar".toList] fs0 walk0 mfoo).stdoutOutput =
      "foo bar\n".toList := by
  decide

/-- C7 amended: in recursive mode with TWO OR MORE paths the run panics with
`"Recursive Search only works for a single directory"` before any file is
opened or line scanned (the result does not depend on the filesystem, the
walk, or stdin) and produces no output on either sink; with zero paths the
run instead proceeds in stream mode. -/
theorem c7_multi_path_fatal (args : Args)
    (stdinLines : List (Option (List Char)))
    (fs : String → Option (List (Option (List Char))))
    (walk : String → List String) (matcher : List Char → List Span)
    (hrec : args.recursive = true) (hlen : 2 ≤ args.filenames.length) :
    grep args stdinLines fs walk matcher =
      ⟨[], [], some "Recursive Search only works for a single directory"⟩ := by
  have hne : args.filenames.isEmpty = false := by
    cases h : args.filenames with
    | nil => rw [h] at hlen; simp at hlen
    | cons a l => rfl
  have hlen1 : ¬ args.filenames.length = 1 := by omega
  simp only [grep, hne, Bool.false_eq_true, if_false, from_files, hrec,
    if_true, hlen1]

/-- C7 amended witness: two paths, arbitrary environment. -/
theorem c7_multi_path_fatal_witness :
    grep argsRecAB [some "foo".toList] fs0 walk0 mfoo =
      ⟨[], [], some "Recursive Search only works for a single directory"⟩ :=
  c7_multi_path_fatal argsRecAB [some "foo".toList] fs0 walk0 mfoo rfl
    (by decide)

/-- C8: with line numbers on, emphasis off and labels off, the output of a
file (and likewise of the stdin stream over the same lines) is exactly the
spec-side rendering `specNumberedOutput … 1`: every physical line — matched,
unmatched or unreadable — is numbered by its 1-based position via
`enumFrom 1`, so numbers start at 1, restart at 1 for every `handle_file`
call, strictly increase within one file or stream, and are independent of
how many earlier lines matched. -/
theorem c8_line_numbering (args : Args) (matcher : List Char → List Span)
    (fs : String → Option (List (Option (List Char)))) (fname : String)
    (lines : List (Option (List Char)))
    (hv : ∀ l, validChainFrom 0 (matcher l) = true)
    (hc : args.color = false) (hn : args.names = false)
    (hfs : fs fname = some lines) :
    (handle_file fs fname args matcher).output =
      specNumberedOutput args matcher lines 1 ∧
    from_stdin args matcher lines = specNumberedOutput args matcher lines 1 := by
  have hstream : fromStdinLoop args matcher lines 0 =
      specNumberedOutput args matcher lines (0 + 1) :=
    fromStdinLoop_eq_spec args matcher hv hc lines 0
  constructor
  · simp only [handle_file, hfs]
    rw [handleFileLoop_names_false args matcher fname hn lines 0 false]
    exact hstream
  · exact hstream

/-- C8 witness: a four-line file whose second line is unreadable. -/
theorem c8_line_numbering_witness :
    (handle_file fsW8 "w.txt" argsNum mfoo).output =
      specNumberedOutput argsNum mfoo
        [some "foo a".toList, none, some "b".toList, some "foo c".toList] 1 ∧
    from_stdin argsNum mfoo
      [some "foo a".toList, none, some "b".toList, some "foo c".toList] =
      specNumberedOutput argsNum mfoo
        [some "foo a".toList, none, some "b".toList, some "foo c".toList] 1 :=
  c8_line_numbering argsNum mfoo fsW8 "w.txt"
    [some "foo a".toList, none, some "b".toList, some "foo c".toList]
    (fun l => litFind_valid "foo".toList l) rfl rfl (by decide)

/-- C9: the concrete scenario — stream input of the four lines, pattern
`"foo"` case-sensitive, line numbers on, no emphasis, no labels — produces
exactly `"1:foo bar\n4:foo baz\n"`. -/
theorem c9_scenario :
    from_stdin argsNum mfoo
      [some "foo bar".toList, some "bar baz".toList,
       some "bar baz FOO".toList, some "foo baz".toList] =
      "1:foo bar\n4:foo baz\n".toList := by
  decide

/-- C10: when the filename list is empty (stream mode), `grep` writes
nothing to the `writer` parameter it was given — all output goes to the
process stdout — so for every environment the writer-side output is empty. -/
theorem c10_writer_untouched (args : Args)
    (stdinLines : List (Option (List Char)))
    (fs : String → Option (List (Option (List Char))))
    (walk : String → List String) (matcher : List Char → List Span)
    (h : args.filenames = []) :
    grep args stdinLines fs walk matcher =
      ⟨[], from_stdin args matcher stdinLines, none⟩ := by
  simp [grep, h]

/-- C10 witness: stream mode on one line of stdin. -/
theorem c10_writer_untouched_witness :
    grep argsPlain [some "foo bar".toList] fs0 walk0 mfoo =
      ⟨[], from_stdin argsPlain mfoo [some "foo bar".toList], none⟩ :=
  c10_writer_untouched argsPlain [some "foo bar".toList] fs0 walk0 mfoo rfl

end Minigrep
